import Mathlib

/-!
Shallow embedding of the `pro200/go-storage` package (files `storage.go` and
the unnamed sibling implementation, here under namespace `Sibling`).

Modelling conventions:
* Go strings are Lean `String`s; the Go `strings` helpers used by the source
  (`HasPrefix`, `Contains`, `Split` on `"."`) are re-implemented executably
  below (`goStartsWith`, `goContains`, `goSplitDot`).
* Go `int` / `int64` are Lean `Int`; the one narrowing conversion in the
  source (`int32(length)` in `List`) is modelled by `int32wrap`, the exact
  two's-complement truncation Go performs.
* External collaborators (AWS SDK client, HTTP transport, filesystem,
  `utils.ContentType`) are out of scope per the spec; each operation takes an
  environment record describing the collaborator responses for the single
  call sequence it performs, and additionally returns the list of network
  calls it issued (`NetCall` trace), in order.
* A Go runtime panic (index out of range, nil-pointer method call) is the
  `Outcome.panicked` result.
* `awsConfig.LoadDefaultConfig` failure is not modelled (collaborator assumed
  correct per the spec); construction therefore only errors on the empty
  endpoint, mirroring the source's own checks.
-/

/-- Result of a Go computation that can return a value, return an error
value, or panic at runtime. -/
inductive Outcome (ε α : Type) where
  | ok (a : α)
  | err (e : ε)
  | panicked
deriving DecidableEq, Repr

/-- Re-implementation of `strings.HasPrefix` via `List.isPrefixOf` on the
underlying character lists. -/
def goStartsWith (s pat : String) : Bool :=
  pat.data.isPrefixOf s.data

/-- Substring containment on character lists: `hasSub sub l` is true iff
`sub` occurs contiguously inside `l`. -/
def hasSub (sub : List Char) : List Char → Bool
  | [] => sub.isEmpty
  | c :: cs => sub.isPrefixOf (c :: cs) || hasSub sub cs

/-- Re-implementation of `strings.Contains`. -/
def goContains (s sub : String) : Bool :=
  hasSub sub.data s.data

/-- Splitting a character list at every occurrence of `sep`, keeping empty
segments, exactly as `strings.Split` does for a one-character separator. -/
def splitCh (sep : Char) : List Char → List (List Char)
  | [] => [[]]
  | c :: cs =>
    if c = sep then [] :: splitCh sep cs
    else
      match splitCh sep cs with
      | [] => [[c]]
      | s :: ss => (c :: s) :: ss

/-- Re-implementation of `strings.Split(s, ".")`. -/
def goSplitDot (s : String) : List String :=
  (splitCh '.' s.data).map fun l => String.mk l

/-- Go's `int32(x)` conversion applied to an `int64` value: truncation to the
low 32 bits, reinterpreted as two's complement. -/
def int32wrap (x : Int) : Int :=
  let m := x % 4294967296
  if m < 2147483648 then m else m - 4294967296

/-- The `Config` struct shared by both implementations. -/
structure Config where
  Endpoint : String
  Region : String
  AccessKeyID : String
  SecretAccessKey : String
deriving DecidableEq, Repr

/-- The provider classification enum (`SType` constants in `storage.go`). -/
inductive SType where
  | r2
  | backblaze
  | bunnyCDN
  | etc
deriving DecidableEq, Repr

/-- The `Storage` struct: the resolved configuration plus whether the AWS S3
client (and presign client) were constructed.  In `storage.go` the client is
left nil exactly when the endpoint contains `"bunnycdn"`; calling an S3
method through a nil client panics at runtime, which the operations below
model via `hasClient`. -/
structure Storage where
  config : Config
  hasClient : Bool
deriving DecidableEq, Repr

/-- Endpoint normalization step of `NewStorage` / `New`: prepend `https://`
when no `http://` or `https://` scheme is present. -/
def normalizeEndpoint (e : String) : String :=
  if goStartsWith e "http://" = true ∨ goStartsWith e "https://" = true then e
  else "https://" ++ e

/-- The shared construction logic of `NewStorage` (storage.go) and `New`
(the sibling file): reject an empty endpoint, normalize the scheme, extract
the Backblaze region from the second dot-separated segment when no region
was supplied, and default the region to `"auto"`.  `parts[1]` in Go panics
when the split yields fewer than two segments. -/
def resolveConfig (config : Config) : Outcome String Config :=
  if config.Endpoint = "" then
    .err "missing endpoint"
  else
    let ep := normalizeEndpoint config.Endpoint
    let step? : Option String :=
      if config.Region = "" ∧ goContains ep "backblazeb2" = true then
        (goSplitDot ep)[1]?
      else some config.Region
    match step? with
    | none => .panicked
    | some r1 =>
      .ok { config with
            Endpoint := ep
            Region := if r1 = "" then "auto" else r1 }

/-- `NewStorage` from `storage.go`: after config resolution, an endpoint
containing `"bunnycdn"` gets a `Storage` with no S3 client; every other
endpoint gets the S3 client and presign client. -/
def NewStorage (config : Config) : Outcome String Storage :=
  match resolveConfig config with
  | .err e => .err e
  | .panicked => .panicked
  | .ok cfg => .ok { config := cfg, hasClient := !(goContains cfg.Endpoint "bunnycdn") }

/-- The provider classifier `Type()` from `storage.go`, a pure function of
the stored endpoint string (named `stype` since `Type` is reserved). -/
def stype (endpoint : String) : SType :=
  if goContains endpoint "cloudflarestorage" = true then .r2
  else if goContains endpoint "backblazeb2" = true then .backblaze
  else if goContains endpoint "bunnycdn" = true then .bunnyCDN
  else .etc

/-- One outbound network call, as recorded in an operation's trace. -/
inductive NetCall where
  | s3Head (bucket key : String)
  | s3List (bucket pfx : String) (maxKeys : Int) (token : Option String)
  | s3Put (bucket key contentType : String) (size : Int)
  | s3Get (bucket key : String)
  | s3Delete (bucket key : String)
  | s3PresignGet (bucket key : String) (ttl : Int)
  | s3PresignPut (bucket key : String) (ttl : Int)
  | httpPut (url : String) (headers : List (String × String)) (size : Int)
  | httpGet (url : String) (headers : List (String × String))
  | httpDelete (url : String) (headers : List (String × String))
deriving DecidableEq, Repr

/-- An operation's ordered list of outbound network calls. -/
abbrev Trace := List NetCall

/-- The parts of `s3.HeadObjectOutput` the source reads. -/
structure HeadOut where
  contentLength : Option Int
deriving DecidableEq, Repr

/-- Error values produced by the operations, mirroring the error messages
constructed in the source. -/
inductive Err where
  | unsupported (msg : String)
  | transport (msg : String)
  | statusBody (msg : String)
  | statusCode (code : Int)
  | createFile
  | copyFile
  | readErr
  | openErr
  | zeroSize
  | putErr (msg : String)
  | headErr (msg : String)
  | uploadFailed
  | originDownload (status : Int)
deriving DecidableEq, Repr

/-- `Info` from `storage.go`.  `env` is the collaborator's `HeadObject`
response. -/
def Storage.Info (s : Storage) (env : Except String HeadOut) (bucket key : String) :
    Outcome Err HeadOut × Trace :=
  if stype s.config.Endpoint = SType.bunnyCDN then
    (.err (.unsupported "bunnycdn storage does not support Info operation"), [])
  else if s.hasClient = false then
    (.panicked, [])
  else
    match env with
    | .error e => (.err (.transport e), [NetCall.s3Head bucket key])
    | .ok h => (.ok h, [NetCall.s3Head bucket key])

/-- `List` from `storage.go` (identical in the sibling file apart from the
missing bunnycdn guard).  `env` is the collaborator's `ListObjectsV2`
response: the object keys and the optional next continuation token. -/
def Storage.List (s : Storage) (env : Except String (List String × Option String))
    (bucket pfx : String) (length : Int) (token : Option String) :
    Outcome Err (List String × String) × Trace :=
  if stype s.config.Endpoint = SType.bunnyCDN then
    (.err (.unsupported "bunnycdn storage does not support List operation"), [])
  else if s.hasClient = false then
    (.panicked, [])
  else
    let len := if length > 1000 then 1000 else length
    let call := NetCall.s3List bucket pfx (int32wrap len) token
    match env with
    | .error e => (.err (.transport e), [call])
    | .ok (keys, nt) => (.ok (keys, nt.getD ""), [call])

/-- The upload tail duplicated verbatim in both implementations (the
zero-size check, the S3 put through the uploader, and the size-verification
`HeadObject` whose mismatch yields the "upload failed" error), appending its
calls to the trace `tr0` accumulated so far.  A nil S3 client panics. -/
def uploadVerifyTail (hasClient : Bool) (s3Put : Except String Unit)
    (head : Except String Int) (bucket key contentType : String) (size : Int)
    (tr0 : Trace) : Outcome Err Unit × Trace :=
  if size = 0 then (.err .zeroSize, tr0)
  else if hasClient = false then (.panicked, tr0)
  else
    let tr1 := tr0 ++ [NetCall.s3Put bucket key contentType size]
    match s3Put with
    | .error e => (.err (.putErr e), tr1)
    | .ok _ =>
      let tr2 := tr1 ++ [NetCall.s3Head bucket key]
      match head with
      | .error e => (.err (.headErr e), tr2)
      | .ok m =>
        if size ≠ m then (.err .uploadFailed, tr2)
        else (.ok (), tr2)

/-- Collaborator responses consumed by `Upload` in `storage.go`:
`readFile` is the `os.ReadFile` result (number of bytes read), `ctOf` is
`utils.ContentType`, `httpPut` is the direct bunnycdn PUT response (status
code and response body), `s3Put` the uploader result, `head` the
verification `HeadObject` content length. -/
structure UploadEnv where
  readFile : Except Unit Nat
  ctOf : String → String
  httpPut : Except String (Int × String)
  s3Put : Except String Unit
  head : Except String Int

/-- `Upload` from `storage.go`: read the local file at `path`, reject a
zero-size file, resolve the content type (extension-based with an optional
caller override), then either a raw HTTP PUT for the bunnycdn variant or an
S3 put followed by a verification head comparing sizes. -/
def Storage.Upload (s : Storage) (env : UploadEnv) (bucket path key : String)
    (forceType : Option String) : Outcome Err Unit × Trace :=
  match env.readFile with
  | .error _ => (.err .readErr, [])
  | .ok n =>
    if n = 0 then (.err .zeroSize, [])
    else
      let contentType := match forceType with
        | some t => t
        | none => env.ctOf path
      if stype s.config.Endpoint = SType.bunnyCDN then
        let url := s.config.Endpoint ++ "/" ++ bucket ++ "/" ++ key
        let hdrs := [("AccessKey", s.config.SecretAccessKey), ("Content-Type", contentType)]
        let tr := [NetCall.httpPut url hdrs (n : Int)]
        match env.httpPut with
        | .error e => (.err (.transport e), tr)
        | .ok (st, body) =>
          if st ≥ 300 then (.err (.statusBody ("upload failed: " ++ body)), tr)
          else (.ok (), tr)
      else
        uploadVerifyTail s.hasClient env.s3Put env.head bucket key contentType (n : Int) []

/-- Collaborator responses consumed by `Delete` in `storage.go`. -/
structure DeleteEnv where
  httpDelete : Except String (Int × String)
  s3Delete : Except String Unit

/-- `Delete` from `storage.go`: raw HTTP DELETE for the bunnycdn variant
(failing on status ≥ 300 with the response body in the message), S3 delete
otherwise. -/
def Storage.Delete (s : Storage) (env : DeleteEnv) (bucket key : String) :
    Outcome Err Unit × Trace :=
  if stype s.config.Endpoint = SType.bunnyCDN then
    let url := s.config.Endpoint ++ "/" ++ bucket ++ "/" ++ key
    let tr := [NetCall.httpDelete url [("AccessKey", s.config.SecretAccessKey)]]
    match env.httpDelete with
    | .error e => (.err (.transport e), tr)
    | .ok (st, body) =>
      if st ≥ 300 then (.err (.statusBody ("delete failed: " ++ body)), tr)
      else (.ok (), tr)
  else if s.hasClient = false then
    (.panicked, [])
  else
    match env.s3Delete with
    | .error e => (.err (.transport e), [NetCall.s3Delete bucket key])
    | .ok _ => (.ok (), [NetCall.s3Delete bucket key])

/-- Collaborator responses consumed by `Download` in `storage.go`. -/
structure DownloadEnv where
  httpGet : Except String Int
  createOk : Bool
  copyOk : Bool
  s3Get : Except String Unit

/-- `Download` from `storage.go`: raw HTTP GET for the bunnycdn variant
(non-200 status fails, then the body is streamed into a freshly created
file), S3 download into a freshly created file otherwise. -/
def Storage.Download (s : Storage) (env : DownloadEnv) (bucket key targetPath : String) :
    Outcome Err Unit × Trace :=
  if stype s.config.Endpoint = SType.bunnyCDN then
    let url := s.config.Endpoint ++ "/" ++ bucket ++ "/" ++ key
    let tr := [NetCall.httpGet url [("AccessKey", s.config.SecretAccessKey)]]
    match env.httpGet with
    | .error e => (.err (.transport e), tr)
    | .ok st =>
      if st ≠ 200 then (.err (.statusCode st), tr)
      else if env.createOk = false then (.err .createFile, tr)
      else if env.copyOk = false then (.err .copyFile, tr)
      else (.ok (), tr)
  else if env.createOk = false then
    (.err .createFile, [])
  else if s.hasClient = false then
    (.panicked, [])
  else
    match env.s3Get with
    | .error e => (.err (.transport e), [NetCall.s3Get bucket key])
    | .ok _ => (.ok (), [NetCall.s3Get bucket key])

/-- `PresignGet` from `storage.go`. -/
def Storage.PresignGet (s : Storage) (env : Except String String) (bucket key : String)
    (ttl : Int) : Outcome Err String × Trace :=
  if stype s.config.Endpoint = SType.bunnyCDN then
    (.err (.unsupported "bunnycdn storage does not support Presign operation"), [])
  else if s.hasClient = false then
    (.panicked, [])
  else
    match env with
    | .error e => (.err (.transport e), [NetCall.s3PresignGet bucket key ttl])
    | .ok url => (.ok url, [NetCall.s3PresignGet bucket key ttl])

/-- `PresignPut` from `storage.go`. -/
def Storage.PresignPut (s : Storage) (env : Except String String) (bucket key : String)
    (ttl : Int) : Outcome Err String × Trace :=
  if stype s.config.Endpoint = SType.bunnyCDN then
    (.err (.unsupported "bunnycdn storage does not support Presign operation"), [])
  else if s.hasClient = false then
    (.panicked, [])
  else
    match env with
    | .error e => (.err (.transport e), [NetCall.s3PresignPut bucket key ttl])
    | .ok url => (.ok url, [NetCall.s3PresignPut bucket key ttl])

/-- `New` from the sibling implementation: identical config resolution, and
the S3 client is always constructed. -/
def Sibling.New (config : Config) : Outcome String Storage :=
  match resolveConfig config with
  | .err e => .err e
  | .panicked => .panicked
  | .ok cfg => .ok { config := cfg, hasClient := true }

/-- The `Options` struct of the sibling implementation. -/
structure Sibling.Options where
  Headers : List (String × String)
  ContentType : String
deriving DecidableEq, Repr

/-- Collaborator responses consumed by the sibling `Upload`: `httpGet` is
the origin GET response (status, `Content-Type` header value, and
`ContentLength`), `openFile` the `os.Open`/`Stat` size of a local origin,
`ctOf` is `utils.ContentType`, `s3Put` the uploader result, and `head` the
verification `HeadObject` content length. -/
structure Sibling.UploadEnv where
  httpGet : Except String (Int × String × Int)
  openFile : Except Unit Int
  ctOf : String → String
  s3Put : Except String Unit
  head : Except String Int

/-- Content-type resolution of the sibling `Upload` (its lines setting
`opt.ContentType`): a non-empty caller override stands; otherwise, in remote
mode (`respCT?` is the origin response's content-type header), the response
value is adopted; a still-empty content type falls back to
`utils.ContentType(origin)` — the collaborator applied to the origin. -/
def Sibling.resolveCT (ctOf : String → String) (optCT : String) (respCT? : Option String)
    (origin : String) : String :=
  let ct1 := match respCT? with
    | some rct => if optCT = "" then rct else optCT
    | none => optCT
  if ct1 = "" then ctOf origin else ct1

/-- `Upload` from the sibling implementation: an origin starting with
`https://` is fetched over HTTP (non-200 fails; the response content type is
adopted when no override was given; size is the response content length),
otherwise the origin is opened as a local file (size from `Stat`).  A still
missing content type falls back to `utils.ContentType(origin)`.  Zero size
is rejected, then the S3 put runs, followed by the size-verification head. -/
def Sibling.Upload (s : Storage) (env : Sibling.UploadEnv) (bucket key origin : String)
    (options : Option Sibling.Options) : Outcome Err Unit × Trace :=
  let opt := options.getD { Headers := [], ContentType := "" }
  let isRemote := goStartsWith origin "https://"
  if isRemote = true then
    let tr0 := [NetCall.httpGet origin opt.Headers]
    match env.httpGet with
    | .error e => (.err (.transport e), tr0)
    | .ok (st, respCT, cl) =>
      if st ≠ 200 then (.err (.originDownload st), tr0)
      else
        uploadVerifyTail s.hasClient env.s3Put env.head bucket key
          (Sibling.resolveCT env.ctOf opt.ContentType (some respCT) origin) cl tr0
  else
    match env.openFile with
    | .error _ => (.err .openErr, [])
    | .ok size =>
      uploadVerifyTail s.hasClient env.s3Put env.head bucket key
        (Sibling.resolveCT env.ctOf opt.ContentType none origin) size []

/-! Concrete sample values used by the witness and counterexample theorems. -/

/-- A storage handle as `NewStorage` builds it for the bunnycdn endpoint. -/
def sampleBunny : Storage :=
  { config := { Endpoint := "https://storage.bunnycdn.com", Region := "auto",
                AccessKeyID := "AK", SecretAccessKey := "SK" },
    hasClient := false }

/-- A storage handle for a generic S3-compatible endpoint. -/
def sampleEtc : Storage :=
  { config := { Endpoint := "https://s3.example.com", Region := "auto",
                AccessKeyID := "AK", SecretAccessKey := "SK" },
    hasClient := true }

/-- Collaborator responses for an upload whose direct PUT succeeds while the
stored size (999) differs from the 5-byte source. -/
def sampleUploadEnv : UploadEnv :=
  { readFile := .ok 5, ctOf := fun _ => "text/plain",
    httpPut := .ok (200, ""), s3Put := .ok (), head := .ok 999 }

/-- Collaborator responses for a standard-path upload whose stored size
matches the 5-byte source. -/
def sampleUploadEnvStd : UploadEnv :=
  { readFile := .ok 5, ctOf := fun _ => "text/plain",
    httpPut := .error "unused", s3Put := .ok (), head := .ok 5 }

/-- Collaborator responses for a zero-byte local file. -/
def sampleUploadEnvZero : UploadEnv :=
  { readFile := .ok 0, ctOf := fun _ => "text/plain",
    httpPut := .error "unused", s3Put := .ok (), head := .ok 0 }

/-- Collaborator responses for the sibling upload from a 7-byte local
origin, with a content-type collaborator distinguishing source and
destination extensions. -/
def samplePartEnv : Sibling.UploadEnv :=
  { httpGet := .error "unused", openFile := .ok 7,
    ctOf := fun p => if p = "/tmp/a.png" then "image/png" else "video/mp4",
    s3Put := .ok (), head := .ok 7 }

/-- Collaborator responses for a sibling upload whose remote origin reports
content length zero. -/
def samplePartEnvZero : Sibling.UploadEnv :=
  { httpGet := .ok (200, "text/html", 0), openFile := .ok 0,
    ctOf := fun _ => "text/plain", s3Put := .ok (), head := .ok 0 }

/-- A delete-environment sample. -/
def sampleDeleteEnv : DeleteEnv := { httpDelete := .ok (200, ""), s3Delete := .ok () }

/-- Every `s3Put` call in the trace carries the given content type. -/
def putCTIs (tr : Trace) (ct : String) : Prop :=
  ∀ b k c n, NetCall.s3Put b k c n ∈ tr → c = ct

/-- Every `httpPut` call in the trace carries the given `Content-Type`
header value. -/
def httpPutCTIs (tr : Trace) (ct : String) : Prop :=
  ∀ u h n, NetCall.httpPut u h n ∈ tr → ("Content-Type", ct) ∈ h

/-! Helper lemmas about the re-implemented Go string functions. -/

theorem isPrefixOf_self_append (l t : List Char) : l.isPrefixOf (l ++ t) = true := by
  induction l with
  | nil => simp
  | cons c cs ih => simp [List.isPrefixOf_cons₂, ih]

theorem goStartsWith_https_append (e : String) :
    goStartsWith ("https://" ++ e) "https://" = true := by
  unfold goStartsWith
  rw [String.data_append]
  exact isPrefixOf_self_append _ _

theorem hasSub_cons (sub : List Char) (c : Char) (l : List Char)
    (h : hasSub sub l = true) : hasSub sub (c :: l) = true := by
  simp [hasSub, h]

theorem hasSub_append_right (sub m : List Char) (h : hasSub sub m = true) :
    ∀ l, hasSub sub (l ++ m) = true := by
  intro l
  induction l with
  | nil => exact h
  | cons c cs ih => exact hasSub_cons _ c _ ih

theorem splitCh_ne_nil (sep : Char) (l : List Char) : splitCh sep l ≠ [] := by
  cases l with
  | nil => simp [splitCh]
  | cons c cs =>
    simp only [splitCh]
    split
    · simp
    · split <;> simp

theorem splitCh_append_of_not_mem (sep : Char) (l rest : List Char) (h : sep ∉ l) :
    splitCh sep (l ++ sep :: rest) = l :: splitCh sep rest := by
  induction l with
  | nil => simp [splitCh]
  | cons c cs ih =>
    simp only [List.mem_cons, not_or] at h
    obtain ⟨hc, hcs⟩ := h
    have hne : ¬ c = sep := fun hh => hc hh.symm
    simp only [List.cons_append, splitCh, if_neg hne]
    rw [show cs.append (sep :: rest) = cs ++ sep :: rest from rfl, ih hcs]

theorem mk_data (s : String) : String.mk s.data = s := rfl

theorem goSplitDot_sandwich (e : String) (p r t : List Char)
    (he : e.data = p ++ '.' :: (r ++ '.' :: t))
    (hp : '.' ∉ p) (hr : '.' ∉ r) :
    goSplitDot e = String.mk p :: String.mk r :: (splitCh '.' t).map String.mk := by
  unfold goSplitDot
  rw [he, splitCh_append_of_not_mem _ _ _ hp, splitCh_append_of_not_mem _ _ _ hr]
  simp

theorem int32wrap_eq_self (x : Int) (h1 : -2147483648 ≤ x) (h2 : x < 2147483648) :
    int32wrap x = x := by
  simp only [int32wrap]
  omega

/-! Claim theorems. -/

/-- C3: the non-empty endpoint "backblazeb2" contains the Backblaze marker
and its normalized form "https://backblazeb2" has a single dot-separated
segment, so construction with no region panics (index out of range on
`parts[1]`) in both implementations instead of returning an error value. -/
theorem c3_short_backblaze_endpoint_panics :
    NewStorage { Endpoint := "backblazeb2", Region := "", AccessKeyID := "",
                 SecretAccessKey := "" } = Outcome.panicked
      ∧ Sibling.New { Endpoint := "backblazeb2", Region := "", AccessKeyID := "",
                      SecretAccessKey := "" } = Outcome.panicked := by
  constructor <;> rfl

/-- C7: a non-empty endpoint lacking an `http://` or `https://` scheme is
normalized by prepending exactly one `https://` prefix; an endpoint already
carrying a scheme is left unchanged; and normalization is idempotent. -/
theorem c7_scheme_normalization (e : String) (_hne : e ≠ "")
    (h1 : goStartsWith e "http://" = false) (h2 : goStartsWith e "https://" = false) :
    normalizeEndpoint e = "https://" ++ e
      ∧ (∀ f, (goStartsWith f "http://" = true ∨ goStartsWith f "https://" = true) →
          normalizeEndpoint f = f)
      ∧ (∀ f, normalizeEndpoint (normalizeEndpoint f) = normalizeEndpoint f) := by
  refine ⟨?_, ?_, ?_⟩
  · have hf : ¬ (goStartsWith e "http://" = true ∨ goStartsWith e "https://" = true) := by
      simp [h1, h2]
    unfold normalizeEndpoint
    rw [if_neg hf]
  · intro f hf
    unfold normalizeEndpoint
    rw [if_pos hf]
  · intro f
    by_cases hf : goStartsWith f "http://" = true ∨ goStartsWith f "https://" = true
    · unfold normalizeEndpoint
      rw [if_pos hf, if_pos hf]
    · have h3 : normalizeEndpoint f = "https://" ++ f := by
        unfold normalizeEndpoint
        rw [if_neg hf]
      rw [h3]
      unfold normalizeEndpoint
      rw [if_pos (Or.inr (goStartsWith_https_append f))]

/-- C7 witness: normalizing the schemeless endpoint "example.com" prepends
exactly one `https://`. -/
theorem c7_witness : normalizeEndpoint "example.com" = "https://" ++ "example.com" :=
  (c7_scheme_normalization "example.com" (by decide) (by decide) (by decide)).1

/-- C8: provider classification is the pure function `stype` of the endpoint
string, decided by substring containment in first-match priority order:
the R2 marker `cloudflarestorage` first, then `backblazeb2`, then
`bunnycdn`, and otherwise the generic variant. -/
theorem c8_classifier_priority :
    (∀ e, goContains e "cloudflarestorage" = true → stype e = SType.r2)
      ∧ (∀ e, goContains e "cloudflarestorage" = false →
          goContains e "backblazeb2" = true → stype e = SType.backblaze)
      ∧ (∀ e, goContains e "cloudflarestorage" = false →
          goContains e "backblazeb2" = false →
          goContains e "bunnycdn" = true → stype e = SType.bunnyCDN)
      ∧ (∀ e, goContains e "cloudflarestorage" = false →
          goContains e "backblazeb2" = false →
          goContains e "bunnycdn" = false → stype e = SType.etc) := by
  refine ⟨?_, ?_, ?_, ?_⟩ <;> intro e <;> intros <;> simp [stype, *]

/-- C8 witness: an endpoint containing all three markers classifies as R2,
the earliest marker in the priority order. -/
theorem c8_witness :
    stype "x.cloudflarestorage.backblazeb2.bunnycdn.net" = SType.r2 :=
  c8_classifier_priority.1 _ (by decide)

/-- C2: on a client whose endpoint classifies as the CDN-direct variant,
Info, List, PresignGet and PresignPut all return the unsupported-operation
error with an empty network trace, regardless of arguments and collaborator
responses. -/
theorem c2_cdn_unsupported (s : Storage) (envH : Except String HeadOut)
    (envL : Except String (List String × Option String)) (envPG envPP : Except String String)
    (bucket key pfx : String) (length ttl : Int) (token : Option String)
    (h : stype s.config.Endpoint = SType.bunnyCDN) :
    Storage.Info s envH bucket key
        = (.err (.unsupported "bunnycdn storage does not support Info operation"), [])
      ∧ Storage.List s envL bucket pfx length token
        = (.err (.unsupported "bunnycdn storage does not support List operation"), [])
      ∧ Storage.PresignGet s envPG bucket key ttl
        = (.err (.unsupported "bunnycdn storage does not support Presign operation"), [])
      ∧ Storage.PresignPut s envPP bucket key ttl
        = (.err (.unsupported "bunnycdn storage does not support Presign operation"), []) := by
  refine ⟨?_, ?_, ?_, ?_⟩ <;>
    simp [Storage.Info, Storage.List, Storage.PresignGet, Storage.PresignPut, h]

/-- C2 witness: Info on the sample bunnycdn client returns the
unsupported-operation error without any network call. -/
theorem c2_witness :
    Storage.Info sampleBunny (.ok { contentLength := some 1 }) "b" "k"
      = (.err (.unsupported "bunnycdn storage does not support Info operation"), []) :=
  (c2_cdn_unsupported sampleBunny (.ok { contentLength := some 1 }) (.ok ([], none))
    (.ok "u") (.ok "u") "b" "k" "p" 10 60 none (by decide)).1

theorem isPrefixOf_cons_ne (c d : Char) (h : (c == d) = false) (l m : List Char) :
    (c :: l).isPrefixOf (d :: m) = false := by
  simp only [List.isPrefixOf_cons₂, h, Bool.false_and]

theorem goStartsWith_append (p e : String) : goStartsWith (p ++ e) p = true := by
  unfold goStartsWith
  rw [String.data_append]
  exact isPrefixOf_self_append _ _

theorem string_ne_empty (s : String) (c : Char) (l : List Char) (h : s.data = c :: l) :
    s ≠ "" := by
  intro he
  rw [he, show ("" : String).data = ([] : List Char) from rfl] at h
  exact List.noConfusion h

theorem resolveConfig_backblaze_core (e0 nep r : String) (p : List Char) (ak sk : String)
    (h0 : e0 ≠ "") (hnorm : normalizeEndpoint e0 = nep)
    (hd : nep.data = p ++ '.' :: (r.data ++ '.' :: ("backblazeb2.com" : String).data))
    (hp : '.' ∉ p) (hr : '.' ∉ r.data) (hne : r ≠ "") :
    resolveConfig { Endpoint := e0, Region := "", AccessKeyID := ak, SecretAccessKey := sk }
      = .ok { Endpoint := nep, Region := r, AccessKeyID := ak, SecretAccessKey := sk } := by
  have hc : goContains nep "backblazeb2" = true := by
    unfold goContains
    rw [show nep.data = (p ++ '.' :: r.data ++ ['.']) ++ ("backblazeb2.com" : String).data by
      rw [hd]; simp]
    exact hasSub_append_right _ _ (by decide) _
  have hsplit : goSplitDot nep
      = String.mk p :: r :: (splitCh '.' ("backblazeb2.com" : String).data).map String.mk := by
    have h := goSplitDot_sandwich nep p r.data ("backblazeb2.com" : String).data hd hp hr
    rw [mk_data] at h
    exact h
  simp only [resolveConfig]
  rw [if_neg h0, hnorm, if_pos (And.intro (by trivial) hc), hsplit]
  simp [if_neg hne]

/-- C6: for every dot-free non-empty region token `r`, an endpoint of the
shape `s3.<r>.backblazeb2.com` — bare, or already carrying an `https://` or
`http://` scheme — constructed with an empty region resolves the region to
`r`; and every configuration whose region is still unset after the
Backblaze extraction step (no Backblaze marker in the normalized endpoint)
resolves the region to the literal "auto". -/
theorem c6_region_resolution (r ak sk : String) (hr : '.' ∉ r.data) (hne : r ≠ "") :
    resolveConfig { Endpoint := "s3." ++ r ++ ".backblazeb2.com", Region := "",
                    AccessKeyID := ak, SecretAccessKey := sk }
        = .ok { Endpoint := "https://" ++ ("s3." ++ r ++ ".backblazeb2.com"), Region := r,
                AccessKeyID := ak, SecretAccessKey := sk }
      ∧ resolveConfig { Endpoint := "https://" ++ ("s3." ++ r ++ ".backblazeb2.com"),
                        Region := "", AccessKeyID := ak, SecretAccessKey := sk }
        = .ok { Endpoint := "https://" ++ ("s3." ++ r ++ ".backblazeb2.com"), Region := r,
                AccessKeyID := ak, SecretAccessKey := sk }
      ∧ resolveConfig { Endpoint := "http://" ++ ("s3." ++ r ++ ".backblazeb2.com"),
                        Region := "", AccessKeyID := ak, SecretAccessKey := sk }
        = .ok { Endpoint := "http://" ++ ("s3." ++ r ++ ".backblazeb2.com"), Region := r,
                AccessKeyID := ak, SecretAccessKey := sk }
      ∧ (∀ cfg : Config, cfg.Endpoint ≠ "" → cfg.Region = "" →
          goContains (normalizeEndpoint cfg.Endpoint) "backblazeb2" = false →
          resolveConfig cfg
            = .ok { cfg with Endpoint := normalizeEndpoint cfg.Endpoint, Region := "auto" }) := by
  have hd0 : ("s3." ++ r ++ ".backblazeb2.com").data
      = 's' :: '3' :: '.' :: (r.data ++ (".backblazeb2.com" : String).data) := rfl
  have h0 : ("s3." ++ r ++ ".backblazeb2.com") ≠ "" := string_ne_empty _ _ _ hd0
  have hs1 : goStartsWith ("s3." ++ r ++ ".backblazeb2.com") "http://" = false := by
    unfold goStartsWith
    rw [show ("http://" : String).data = 'h' :: ("ttp://" : String).data from rfl, hd0]
    exact isPrefixOf_cons_ne _ _ (by decide) _ _
  have hs2 : goStartsWith ("s3." ++ r ++ ".backblazeb2.com") "https://" = false := by
    unfold goStartsWith
    rw [show ("https://" : String).data = 'h' :: ("ttps://" : String).data from rfl, hd0]
    exact isPrefixOf_cons_ne _ _ (by decide) _ _
  have hnorm0 : normalizeEndpoint ("s3." ++ r ++ ".backblazeb2.com")
      = "https://" ++ ("s3." ++ r ++ ".backblazeb2.com") := by
    unfold normalizeEndpoint
    rw [if_neg (by simp [hs1, hs2])]
  have hdS : ("https://" ++ ("s3." ++ r ++ ".backblazeb2.com")).data
      = ("https://s3" : String).data
          ++ '.' :: (r.data ++ '.' :: ("backblazeb2.com" : String).data) := rfl
  have hdH : ("http://" ++ ("s3." ++ r ++ ".backblazeb2.com")).data
      = ("http://s3" : String).data
          ++ '.' :: (r.data ++ '.' :: ("backblazeb2.com" : String).data) := rfl
  have hS0 : ("https://" ++ ("s3." ++ r ++ ".backblazeb2.com")) ≠ "" :=
    string_ne_empty _ 'h' (("ttps://" ++ ("s3." ++ r ++ ".backblazeb2.com")).data) rfl
  have hH0 : ("http://" ++ ("s3." ++ r ++ ".backblazeb2.com")) ≠ "" :=
    string_ne_empty _ 'h' (("ttp://" ++ ("s3." ++ r ++ ".backblazeb2.com")).data) rfl
  have hnormS : normalizeEndpoint ("https://" ++ ("s3." ++ r ++ ".backblazeb2.com"))
      = "https://" ++ ("s3." ++ r ++ ".backblazeb2.com") := by
    unfold normalizeEndpoint
    rw [if_pos (Or.inr (goStartsWith_append _ _))]
  have hnormH : normalizeEndpoint ("http://" ++ ("s3." ++ r ++ ".backblazeb2.com"))
      = "http://" ++ ("s3." ++ r ++ ".backblazeb2.com") := by
    unfold normalizeEndpoint
    rw [if_pos (Or.inl (goStartsWith_append _ _))]
  refine ⟨?_, ?_, ?_, ?_⟩
  · exact resolveConfig_backblaze_core _ _ _ _ ak sk h0 hnorm0 hdS (by decide) hr hne
  · exact resolveConfig_backblaze_core _ _ _ _ ak sk hS0 hnormS hdS (by decide) hr hne
  · exact resolveConfig_backblaze_core _ _ _ _ ak sk hH0 hnormH hdH (by decide) hr hne
  · intro cfg h1 h2 h3
    simp only [resolveConfig]
    rw [if_neg h1, if_neg (by simp [h3]), h2]
    simp

/-- C6 witness: the bare endpoint `s3.us-west-004.backblazeb2.com` with no
region resolves the region to `us-west-004`. -/
theorem c6_witness :
    resolveConfig { Endpoint := "s3.us-west-004.backblazeb2.com", Region := "",
                    AccessKeyID := "AK", SecretAccessKey := "SK" }
      = .ok { Endpoint := "https://" ++ ("s3." ++ "us-west-004" ++ ".backblazeb2.com"),
              Region := "us-west-004", AccessKeyID := "AK", SecretAccessKey := "SK" } :=
  (c6_region_resolution "us-west-004" "AK" "SK" (by decide) (by decide)).1

/-- C9 counterexample: the caller-supplied length -2147483649 is below the
int32 range, so Go's `int32(length)` conversion wraps it to 2147483647 and
List passes a max-keys value far above 1000 to the protocol list call. -/
theorem c9_counterexample :
    (Storage.List sampleEtc (.ok ([], none)) "bkt" "" (-2147483649) none).2
        = [NetCall.s3List "bkt" "" 2147483647 none]
      ∧ ¬ ((2147483647 : Int) ≤ 1000) := by
  refine ⟨by decide, by norm_num⟩

/-- C9 amended: for every caller-supplied length that is not below the
int32 minimum (so the narrowing conversion cannot wrap), every protocol
list call List issues carries a max-keys value of at most 1000. -/
theorem c9_amended_maxkeys (s : Storage) (env : Except String (List String × Option String))
    (bucket pfx : String) (length : Int) (token : Option String)
    (h : -2147483648 ≤ length) :
    ∀ b p mk t, NetCall.s3List b p mk t ∈ (Storage.List s env bucket pfx length token).2 →
      mk ≤ 1000 := by
  intro b p mk t hmem
  unfold Storage.List at hmem
  split at hmem
  · simp at hmem
  · split at hmem
    · simp at hmem
    · have hw : int32wrap (if length > 1000 then 1000 else length)
          = (if length > 1000 then 1000 else length) := by
        refine int32wrap_eq_self _ (by split <;> omega) (by split <;> omega)
      rcases env with e | ⟨keys, nt⟩ <;>
        simp only [List.mem_singleton, NetCall.s3List.injEq] at hmem <;>
        rcases hmem with ⟨-, -, hmk, -⟩ <;>
        rw [hmk, hw] <;>
        split <;> omega

/-- C9 witness: a requested length of 5000 on a generic client results in a
protocol list call whose max-keys value is 1000, within the bound. -/
theorem c9_witness :
    NetCall.s3List "bkt" "" 1000 none
        ∈ (Storage.List sampleEtc (.ok ([], none)) "bkt" "" 5000 none).2
      ∧ (1000 : Int) ≤ 1000 :=
  ⟨by decide,
   c9_amended_maxkeys sampleEtc (.ok ([], none)) "bkt" "" 5000 none (by norm_num)
     "bkt" "" 1000 none (by decide)⟩

/-- C4: a resolved source size of zero fails the upload with the zero-size
error before any PUT to the destination storage, for every provider variant
and both source modes: a zero-byte local file in storage.go's Upload (empty
trace), a zero-byte local origin in the sibling Upload (empty trace), and a
remote origin reporting content length zero (the only trace entry is the
origin GET — no destination PUT). -/
theorem c4_zero_size_rejected (s : Storage) (env : UploadEnv) (penv : Sibling.UploadEnv)
    (bucket path key origin : String) (forceType : Option String)
    (popt : Option Sibling.Options) (respCT : String) :
    (env.readFile = .ok 0 →
      Storage.Upload s env bucket path key forceType = (.err .zeroSize, []))
      ∧ (goStartsWith origin "https://" = false → penv.openFile = .ok 0 →
          Sibling.Upload s penv bucket key origin popt = (.err .zeroSize, []))
      ∧ (goStartsWith origin "https://" = true → penv.httpGet = .ok (200, respCT, 0) →
          Sibling.Upload s penv bucket key origin popt
            = (.err .zeroSize,
               [NetCall.httpGet origin (popt.getD { Headers := [], ContentType := "" }).Headers])) := by
  refine ⟨?_, ?_, ?_⟩
  · intro h
    simp [Storage.Upload, h]
  · intro h1 h2
    simp [Sibling.Upload, uploadVerifyTail, h1, h2]
  · intro h1 h2
    simp [Sibling.Upload, uploadVerifyTail, h1, h2]

/-- C4 witness: a zero-byte local file on the generic client is rejected
with the zero-size error and an empty network trace. -/
theorem c4_witness :
    Storage.Upload sampleEtc sampleUploadEnvZero "b" "f.txt" "k" none
      = (.err .zeroSize, []) :=
  (c4_zero_size_rejected sampleEtc sampleUploadEnvZero samplePartEnvZero
    "b" "f.txt" "k" "o.txt" none none "text/html").1 rfl

/-- C1 counterexample: on the CDN-direct (bunnycdn) variant of storage.go's
Upload, a completed PUT (status 200) returns success with a trace containing
no verification head call at all, even though the collaborator would report
a stored size of 999 for the 5-byte source. -/
theorem c1_counterexample :
    Storage.Upload sampleBunny sampleUploadEnv "bkt" "f.txt" "obj" none
        = (.ok (), [NetCall.httpPut "https://storage.bunnycdn.com/bkt/obj"
            [("AccessKey", "SK"), ("Content-Type", "text/plain")] 5])
      ∧ sampleUploadEnv.head = .ok 999
      ∧ (5 : Int) ≠ 999 := by
  refine ⟨by decide, rfl, by decide⟩

/-- C1 amended: on the standard-protocol path — storage.go's Upload for
every non-CDN variant with a constructed client, and the sibling Upload in
both source modes — a completed PUT is followed by the verification head
call, and the operation fails with the integrity error ("upload failed")
exactly when the stored size differs from the resolved source size,
returning success otherwise; the CDN-direct path of storage.go performs no
verification (см. the counterexample). -/
theorem c1_amended_verification (s : Storage) (env : UploadEnv) (penv : Sibling.UploadEnv)
    (bucket path key origin : String) (forceType : Option String)
    (popt : Option Sibling.Options) (n : Nat) (m size pm cl : Int) (respCT : String) :
    (stype s.config.Endpoint ≠ SType.bunnyCDN → s.hasClient = true →
      env.readFile = .ok n → n ≠ 0 → env.s3Put = .ok () → env.head = .ok m →
      (Storage.Upload s env bucket path key forceType).2
          = [NetCall.s3Put bucket key
               (match forceType with | some t => t | none => env.ctOf path) (n : Int),
             NetCall.s3Head bucket key]
        ∧ ((Storage.Upload s env bucket path key forceType).1 = .err .uploadFailed
            ↔ (n : Int) ≠ m)
        ∧ ((Storage.Upload s env bucket path key forceType).1 = .ok () ↔ (n : Int) = m))
      ∧ (s.hasClient = true → goStartsWith origin "https://" = false →
          penv.openFile = .ok size → size ≠ 0 → penv.s3Put = .ok () → penv.head = .ok pm →
          NetCall.s3Head bucket key ∈ (Sibling.Upload s penv bucket key origin popt).2
            ∧ ((Sibling.Upload s penv bucket key origin popt).1 = .err .uploadFailed
                ↔ size ≠ pm)
            ∧ ((Sibling.Upload s penv bucket key origin popt).1 = .ok () ↔ size = pm))
      ∧ (s.hasClient = true → goStartsWith origin "https://" = true →
          penv.httpGet = .ok (200, respCT, cl) → cl ≠ 0 →
          penv.s3Put = .ok () → penv.head = .ok pm →
          NetCall.s3Head bucket key ∈ (Sibling.Upload s penv bucket key origin popt).2
            ∧ ((Sibling.Upload s penv bucket key origin popt).1 = .err .uploadFailed
                ↔ cl ≠ pm)
            ∧ ((Sibling.Upload s penv bucket key origin popt).1 = .ok () ↔ cl = pm)) := by
  refine ⟨?_, ?_, ?_⟩
  · intro h1 h2 h3 h4 h5 h6
    by_cases hnm : (n : Int) = m
    · simp [Storage.Upload, uploadVerifyTail, h1, h2, h3, h4, h5, h6, ← hnm]
    · simp [Storage.Upload, uploadVerifyTail, h1, h2, h3, h4, h5, h6, hnm]
  · intro h1 h2 h3 h4 h5 h6
    by_cases hnm : size = pm
    · subst hnm
      simp [Sibling.Upload, uploadVerifyTail, h1, h2, h3, h4, h5, h6]
    · simp [Sibling.Upload, uploadVerifyTail, h1, h2, h3, h4, h5, h6, hnm]
  · intro h1 h2 h3 h4 h5 h6
    by_cases hnm : cl = pm
    · subst hnm
      simp [Sibling.Upload, uploadVerifyTail, h1, h2, h3, h4, h5, h6]
    · simp [Sibling.Upload, uploadVerifyTail, h1, h2, h3, h4, h5, h6, hnm]

/-- C1 witness: a 5-byte standard-path upload whose verification head
reports 5 issues the put followed by the head and succeeds. -/
theorem c1_witness :
    (Storage.Upload sampleEtc sampleUploadEnvStd "b" "f.txt" "k" none).2
        = [NetCall.s3Put "b" "k" "text/plain" 5, NetCall.s3Head "b" "k"]
      ∧ ((Storage.Upload sampleEtc sampleUploadEnvStd "b" "f.txt" "k" none).1
          = .err .uploadFailed ↔ (5 : Int) ≠ 5)
      ∧ ((Storage.Upload sampleEtc sampleUploadEnvStd "b" "f.txt" "k" none).1
          = .ok () ↔ (5 : Int) = 5) :=
  (c1_amended_verification sampleEtc sampleUploadEnvStd samplePartEnvZero
    "b" "f.txt" "k" "o.txt" none none 5 5 0 0 0 "").1 (by decide) rfl rfl
    (by decide) rfl rfl

theorem putCTIs_nil (ct : String) : putCTIs [] ct := by
  intro b k c n hmem
  simp at hmem

theorem putCTIs_httpGet (origin : String) (hs : List (String × String)) (ct : String) :
    putCTIs [NetCall.httpGet origin hs] ct := by
  intro b k c n hmem
  simp at hmem

theorem httpPutCTIs_nil (ct : String) : httpPutCTIs [] ct := by
  intro u h n hmem
  simp at hmem

theorem uploadVerifyTail_trace (hc : Bool) (sp : Except String Unit)
    (hd : Except String Int) (bucket key ct : String) (size : Int) (tr0 : Trace) :
    (uploadVerifyTail hc sp hd bucket key ct size tr0).2 = tr0
      ∨ (uploadVerifyTail hc sp hd bucket key ct size tr0).2
          = tr0 ++ [NetCall.s3Put bucket key ct size]
      ∨ (uploadVerifyTail hc sp hd bucket key ct size tr0).2
          = tr0 ++ [NetCall.s3Put bucket key ct size] ++ [NetCall.s3Head bucket key] := by
  unfold uploadVerifyTail
  by_cases h1 : size = 0
  · simp [h1]
  · by_cases h2 : hc = false
    · simp [h1, h2]
    · rcases sp with e | u
      · simp [h1, h2]
      · rcases hd with e2 | m2
        · simp [h1, h2]
        · by_cases h3 : size ≠ m2 <;> simp [h1, h2, h3]

theorem uploadVerifyTail_putCT (hc : Bool) (sp : Except String Unit) (hd : Except String Int)
    (bucket key ct : String) (size : Int) (tr0 : Trace) (h0 : putCTIs tr0 ct) :
    putCTIs (uploadVerifyTail hc sp hd bucket key ct size tr0).2 ct := by
  intro b k c n hmem
  rcases uploadVerifyTail_trace hc sp hd bucket key ct size tr0 with h | h | h
  · rw [h] at hmem
    exact h0 _ _ _ _ hmem
  · rw [h] at hmem
    simp only [List.mem_append, List.mem_singleton] at hmem
    rcases hmem with hx | hx
    · exact h0 _ _ _ _ hx
    · rw [NetCall.s3Put.injEq] at hx
      exact hx.2.2.1
  · rw [h] at hmem
    simp only [List.mem_append, List.mem_singleton] at hmem
    rcases hmem with (hx | hx) | hx
    · exact h0 _ _ _ _ hx
    · rw [NetCall.s3Put.injEq] at hx
      exact hx.2.2.1
    · exact absurd hx (by simp)

theorem uploadVerifyTail_httpCT (hc : Bool) (sp : Except String Unit) (hd : Except String Int)
    (bucket key ct : String) (size : Int) (tr0 : Trace) (ct2 : String)
    (h0 : httpPutCTIs tr0 ct2) :
    httpPutCTIs (uploadVerifyTail hc sp hd bucket key ct size tr0).2 ct2 := by
  intro u h n hmem
  rcases uploadVerifyTail_trace hc sp hd bucket key ct size tr0 with ht | ht | ht
  · rw [ht] at hmem
    exact h0 _ _ _ hmem
  · rw [ht] at hmem
    simp only [List.mem_append, List.mem_singleton] at hmem
    rcases hmem with hx | hx
    · exact h0 _ _ _ hx
    · exact absurd hx (by simp)
  · rw [ht] at hmem
    simp only [List.mem_append, List.mem_singleton] at hmem
    rcases hmem with (hx | hx) | hx
    · exact h0 _ _ _ hx
    · exact absurd hx (by simp)
    · exact absurd hx (by simp)

/-- C5 counterexample: uploading local source `/tmp/a.png` to destination
key `b.mp4` with no override infers the content type by applying the
collaborator to the SOURCE path — the put carries `image/png`, the
collaborator's answer for `/tmp/a.png` — which differs from the
collaborator's answer for the destination key `b.mp4` (`video/mp4`),
refuting inference "from the destination key's file-extension". -/
theorem c5_counterexample :
    (Sibling.Upload sampleEtc samplePartEnv "bkt" "b.mp4" "/tmp/a.png" none).2
        = [NetCall.s3Put "bkt" "b.mp4" "image/png" 7, NetCall.s3Head "bkt" "b.mp4"]
      ∧ samplePartEnv.ctOf "/tmp/a.png" = "image/png"
      ∧ samplePartEnv.ctOf "b.mp4" = "video/mp4"
      ∧ ("image/png" : String) ≠ "video/mp4" := by
  refine ⟨by decide, by decide, by decide, by decide⟩

/-- C5 amended: content-type resolution order, with the fallback inference
applied to the SOURCE origin/path rather than the destination key: a
non-empty caller override always wins; otherwise, in remote mode, a
non-empty response content type is adopted; otherwise the collaborator is
applied to the origin.  Every put the sibling Upload issues carries the
value `Sibling.resolveCT` resolves, and in storage.go's Upload an override
is always used and otherwise the collaborator's answer for the source path
is used, on both the S3 path and the direct-HTTP header. -/
theorem c5_amended_content_type (s : Storage) (penv : Sibling.UploadEnv) (env : UploadEnv)
    (ctOf : String → String) (optCT respCT origin2 : String) (respCT? : Option String)
    (bucket path key origin : String) (popt : Option Sibling.Options)
    (st cl : Int) (respCT2 t : String) :
    (optCT ≠ "" → Sibling.resolveCT ctOf optCT respCT? origin2 = optCT)
      ∧ (respCT ≠ "" → Sibling.resolveCT ctOf "" (some respCT) origin2 = respCT)
      ∧ Sibling.resolveCT ctOf "" (some "") origin2 = ctOf origin2
      ∧ Sibling.resolveCT ctOf "" none origin2 = ctOf origin2
      ∧ (goStartsWith origin "https://" = false →
          putCTIs (Sibling.Upload s penv bucket key origin popt).2
            (Sibling.resolveCT penv.ctOf
              (popt.getD { Headers := [], ContentType := "" }).ContentType none origin))
      ∧ (goStartsWith origin "https://" = true → penv.httpGet = .ok (st, respCT2, cl) →
          putCTIs (Sibling.Upload s penv bucket key origin popt).2
            (Sibling.resolveCT penv.ctOf
              (popt.getD { Headers := [], ContentType := "" }).ContentType (some respCT2) origin))
      ∧ putCTIs (Storage.Upload s env bucket path key (some t)).2 t
      ∧ httpPutCTIs (Storage.Upload s env bucket path key (some t)).2 t
      ∧ putCTIs (Storage.Upload s env bucket path key none).2 (env.ctOf path)
      ∧ httpPutCTIs (Storage.Upload s env bucket path key none).2 (env.ctOf path) := by
  have hcdn : ∀ (ft : Option String) (ctv : String),
      (match ft with | some t2 => t2 | none => env.ctOf path) = ctv →
      putCTIs (Storage.Upload s env bucket path key ft).2 ctv
        ∧ httpPutCTIs (Storage.Upload s env bucket path key ft).2 ctv := by
    intro ft ctv hct
    rcases hr : env.readFile with e | nn
    · rw [show Storage.Upload s env bucket path key ft = (.err .readErr, []) from by
        simp [Storage.Upload, hr]]
      exact ⟨putCTIs_nil _, httpPutCTIs_nil _⟩
    · by_cases hz : nn = 0
      · rw [show Storage.Upload s env bucket path key ft = (.err .zeroSize, []) from by
          simp [Storage.Upload, hr, hz]]
        exact ⟨putCTIs_nil _, httpPutCTIs_nil _⟩
      · by_cases hb : stype s.config.Endpoint = SType.bunnyCDN
        · rcases hp : env.httpPut with e2 | sb
          · rw [show Storage.Upload s env bucket path key ft
                = (.err (.transport e2),
                   [NetCall.httpPut (s.config.Endpoint ++ "/" ++ bucket ++ "/" ++ key)
                     [("AccessKey", s.config.SecretAccessKey), ("Content-Type", ctv)]
                     (nn : Int)]) from by
              simp [Storage.Upload, hr, hz, hb, hp, hct]]
            constructor
            · intro b k c n hmem
              simp at hmem
            · intro u h n hmem
              simp only [List.mem_singleton] at hmem
              rw [NetCall.httpPut.injEq] at hmem
              rw [hmem.2.1]
              simp
          · rcases sb with ⟨st2, body⟩
            by_cases hst : st2 ≥ 300 <;>
            · rw [show (Storage.Upload s env bucket path key ft).2
                  = [NetCall.httpPut (s.config.Endpoint ++ "/" ++ bucket ++ "/" ++ key)
                      [("AccessKey", s.config.SecretAccessKey), ("Content-Type", ctv)]
                      (nn : Int)] from by
                simp [Storage.Upload, hr, hz, hb, hp, hct, hst]]
              constructor
              · intro b k c n hmem
                simp at hmem
              · intro u h n hmem
                simp only [List.mem_singleton] at hmem
                rw [NetCall.httpPut.injEq] at hmem
                rw [hmem.2.1]
                simp
        · rw [show Storage.Upload s env bucket path key ft
              = uploadVerifyTail s.hasClient env.s3Put env.head bucket key ctv (nn : Int) []
              from by simp [Storage.Upload, hr, hz, hb, hct]]
          exact ⟨uploadVerifyTail_putCT _ _ _ _ _ _ _ _ (putCTIs_nil _),
                 uploadVerifyTail_httpCT _ _ _ _ _ _ _ _ _ (httpPutCTIs_nil _)⟩
  refine ⟨?_, ?_, ?_, ?_, ?_, ?_, (hcdn (some t) t rfl).1, (hcdn (some t) t rfl).2,
          (hcdn none (env.ctOf path) rfl).1, (hcdn none (env.ctOf path) rfl).2⟩
  · intro h
    rcases respCT? with _ | rct <;> simp [Sibling.resolveCT, h]
  · intro h
    simp [Sibling.resolveCT, h]
  · simp [Sibling.resolveCT]
  · simp [Sibling.resolveCT]
  · intro hrem
    rcases ho : penv.openFile with e | sz
    · rw [show Sibling.Upload s penv bucket key origin popt = (.err .openErr, []) from by
        simp [Sibling.Upload, hrem, ho]]
      exact putCTIs_nil _
    · rw [show Sibling.Upload s penv bucket key origin popt
          = uploadVerifyTail s.hasClient penv.s3Put penv.head bucket key
              (Sibling.resolveCT penv.ctOf
                (popt.getD { Headers := [], ContentType := "" }).ContentType none origin)
              sz [] from by simp [Sibling.Upload, hrem, ho]]
      exact uploadVerifyTail_putCT _ _ _ _ _ _ _ _ (putCTIs_nil _)
  · intro hrem hget
    by_cases hst : st ≠ 200
    · rw [show Sibling.Upload s penv bucket key origin popt
          = (.err (.originDownload st),
             [NetCall.httpGet origin (popt.getD { Headers := [], ContentType := "" }).Headers])
          from by simp [Sibling.Upload, hrem, hget, hst]]
      exact putCTIs_httpGet _ _ _
    · rw [show Sibling.Upload s penv bucket key origin popt
          = uploadVerifyTail s.hasClient penv.s3Put penv.head bucket key
              (Sibling.resolveCT penv.ctOf
                (popt.getD { Headers := [], ContentType := "" }).ContentType (some respCT2) origin)
              cl [NetCall.httpGet origin (popt.getD { Headers := [], ContentType := "" }).Headers]
          from by simp [Sibling.Upload, hrem, hget, hst]]
      exact uploadVerifyTail_putCT _ _ _ _ _ _ _ _ (putCTIs_httpGet _ _ _)

/-- C5 witness: with a caller override "x/y" on a local sibling upload, the
resolved content type is the override. -/
theorem c5_witness :
    Sibling.resolveCT samplePartEnv.ctOf "x/y" none "/tmp/a.png" = "x/y" :=
  (c5_amended_content_type sampleEtc samplePartEnv sampleUploadEnvStd samplePartEnv.ctOf
    "x/y" "" "/tmp/a.png" none "b" "p" "k" "/tmp/a.png" none 200 0 "" "t").1 (by decide)

/-- C10: on the CDN-direct variant, every direct-HTTP request of Upload,
Download and Delete targets exactly `{endpoint}/{bucket}/{key}`; the Upload
PUT authenticates with a single `AccessKey` header carrying the secret key
(its only `AccessKey` entry), and the Download GET and Delete DELETE carry
exactly that one header; and the access key ID is never used: replacing it
leaves all three operations' results and traces unchanged. -/
theorem c10_direct_http (s : Storage) (env : UploadEnv) (denv : DownloadEnv)
    (xenv : DeleteEnv) (bucket path key target ak2 : String) (forceType : Option String)
    (h : stype s.config.Endpoint = SType.bunnyCDN) :
    (∀ u hd n, NetCall.httpPut u hd n ∈ (Storage.Upload s env bucket path key forceType).2 →
        u = s.config.Endpoint ++ "/" ++ bucket ++ "/" ++ key
          ∧ hd.filter (fun p => p.1 == "AccessKey")
              = [("AccessKey", s.config.SecretAccessKey)])
      ∧ (∀ u hd, NetCall.httpGet u hd ∈ (Storage.Download s denv bucket key target).2 →
          u = s.config.Endpoint ++ "/" ++ bucket ++ "/" ++ key
            ∧ hd = [("AccessKey", s.config.SecretAccessKey)])
      ∧ (∀ u hd, NetCall.httpDelete u hd ∈ (Storage.Delete s xenv bucket key).2 →
          u = s.config.Endpoint ++ "/" ++ bucket ++ "/" ++ key
            ∧ hd = [("AccessKey", s.config.SecretAccessKey)])
      ∧ Storage.Upload { s with config := { s.config with AccessKeyID := ak2 } }
            env bucket path key forceType
          = Storage.Upload s env bucket path key forceType
      ∧ Storage.Download { s with config := { s.config with AccessKeyID := ak2 } }
            denv bucket key target
          = Storage.Download s denv bucket key target
      ∧ Storage.Delete { s with config := { s.config with AccessKeyID := ak2 } } xenv bucket key
          = Storage.Delete s xenv bucket key := by
  have he : (("AccessKey" : String) == "AccessKey") = true := by decide
  have hne : (("Content-Type" : String) == "AccessKey") = false := by decide
  refine ⟨?_, ?_, ?_, rfl, rfl, rfl⟩
  · intro u hd n hmem
    rcases hr : env.readFile with e | nn
    · simp [Storage.Upload, hr] at hmem
    · by_cases hz : nn = 0
      · simp [Storage.Upload, hr, hz] at hmem
      · have htr : (Storage.Upload s env bucket path key forceType).2
            = [NetCall.httpPut (s.config.Endpoint ++ "/" ++ bucket ++ "/" ++ key)
                [("AccessKey", s.config.SecretAccessKey),
                 ("Content-Type", match forceType with | some t => t | none => env.ctOf path)]
                (nn : Int)] := by
          rcases hp : env.httpPut with e2 | sb
          · cases forceType <;> simp [Storage.Upload, hr, hz, h, hp]
          · rcases sb with ⟨st2, body⟩
            cases forceType <;>
              simp [Storage.Upload, hr, hz, h, hp, apply_ite Prod.snd]
        rw [htr] at hmem
        simp only [List.mem_singleton] at hmem
        rw [NetCall.httpPut.injEq] at hmem
        refine ⟨hmem.1, ?_⟩
        rw [hmem.2.1]
        simp [List.filter, he, hne]
  · intro u hd hmem
    have htr : (Storage.Download s denv bucket key target).2
        = [NetCall.httpGet (s.config.Endpoint ++ "/" ++ bucket ++ "/" ++ key)
            [("AccessKey", s.config.SecretAccessKey)]] := by
      rcases hg : denv.httpGet with e | st2 <;>
        simp [Storage.Download, h, hg, apply_ite Prod.snd]
    rw [htr] at hmem
    simp only [List.mem_singleton] at hmem
    rw [NetCall.httpGet.injEq] at hmem
    exact ⟨hmem.1, hmem.2⟩
  · intro u hd hmem
    have htr : (Storage.Delete s xenv bucket key).2
        = [NetCall.httpDelete (s.config.Endpoint ++ "/" ++ bucket ++ "/" ++ key)
            [("AccessKey", s.config.SecretAccessKey)]] := by
      rcases hg : xenv.httpDelete with e | sb
      · simp [Storage.Delete, h, hg]
      · rcases sb with ⟨st2, body⟩
        simp [Storage.Delete, h, hg, apply_ite Prod.snd]
    rw [htr] at hmem
    simp only [List.mem_singleton] at hmem
    rw [NetCall.httpDelete.injEq] at hmem
    exact ⟨hmem.1, hmem.2⟩

/-- C10 witness: on the sample bunnycdn client, replacing the access key ID
leaves Delete's result and trace unchanged. -/
theorem c10_witness :
    Storage.Delete { sampleBunny with
        config := { sampleBunny.config with AccessKeyID := "OTHER" } } sampleDeleteEnv "b" "k"
      = Storage.Delete sampleBunny sampleDeleteEnv "b" "k" :=
  (c10_direct_http sampleBunny sampleUploadEnv
    { httpGet := .ok 200, createOk := true, copyOk := true, s3Get := .ok () }
    sampleDeleteEnv "b" "f.txt" "k" "t.bin" "OTHER" none (by decide)).2.2.2.2.2
